import Mathlib

/-!
Verification development for the CONTRACT-ANALYZER_AGENT repository.

This file shallowly embeds the core pipeline of the repository in Lean 4:
text normalization, JSON extraction from model completions, clause
extraction with caching, per-(clause, regulation) compliance evaluation,
report aggregation, the LLM retry wrapper, and the HTTP batch route.

Conventions used throughout:
* Python strings are modelled as `List Char`; character predicates
  (`isprintable`, whitespace classes) are modelled on their ASCII
  fragment, which is exact for every input exercised here.
* Fallible Python code (code that can raise) is modelled with
  `Except String _`; a `try/except` block becomes a `match` on the
  `Except` value.
* Python dictionaries built by keyed assignment in a loop are modelled
  as functions `String → Option _` built by a fold of pointwise updates
  (later assignments override earlier ones, as in CPython).
* The nondeterministic LLM transport is a universally quantified oracle
  parameter.
-/

set_option autoImplicit false

namespace ContractAgent

/-! ### Character classes (ASCII fragment)

`pyIsSpace` models the whitespace set of Python `str.split` / `str.strip`
restricted to ASCII; `reIsSpace` models the regex class `\s` (ASCII);
`pyIsPrintable` models `str.isprintable` on ASCII characters. -/

def pyIsSpace (c : Char) : Bool :=
  c = ' ' || c = '\t' || c = '\n' || c = '\x0d' || c = '\x0b' || c = '\x0c'

def reIsSpace (c : Char) : Bool :=
  c = ' ' || c = '\t' || c = '\n' || c = '\x0d' || c = '\x0b' || c = '\x0c'

def pyIsPrintable (c : Char) : Bool :=
  32 ≤ c.toNat && c.toNat ≤ 126

/-! ### Python string primitives -/

/-- Model of `str.lstrip()` (no argument): drop leading whitespace. -/
def pyLStrip (l : List Char) : List Char := l.dropWhile pyIsSpace

/-- Model of `str.rstrip()` (no argument): drop trailing whitespace. -/
def pyRStrip (l : List Char) : List Char :=
  (l.reverse.dropWhile pyIsSpace).reverse

/-- Model of `str.strip()` (no argument). -/
def pyStrip (l : List Char) : List Char := pyRStrip (pyLStrip l)

/-- Accumulator-based model of Python `str.split()` with no separator:
split on runs of whitespace, discarding empty pieces.  `acc` is the
word currently being scanned. -/
def pySplitAux : List Char → List Char → List (List Char)
  | [], acc => if acc = [] then [] else [acc]
  | c :: cs, acc =>
    if pyIsSpace c then
      if acc = [] then pySplitAux cs [] else acc :: pySplitAux cs []
    else pySplitAux cs (acc ++ [c])

/-- Model of Python `str.split()` (no separator). -/
def pySplit (l : List Char) : List (List Char) := pySplitAux l []

/-- Model of `' '.join(ws)`. -/
def joinSp : List (List Char) → List Char
  | [] => []
  | [w] => w
  | w :: ws => w ++ ' ' :: joinSp ws

/-- Substring test, modelling Python `needle in haystack`. -/
def hasSubstr (hay needle : List Char) : Bool :=
  if needle.isPrefixOf hay then true
  else match hay with
  | [] => false
  | _ :: t => hasSubstr t needle

/-- Index of the first occurrence of `c`, if any. -/
def firstIdxOf (c : Char) (l : List Char) : Option Nat :=
  l.findIdx? (· = c)

/-- Index of the last occurrence of `c`, if any. -/
def lastIdxOf (c : Char) (l : List Char) : Option Nat :=
  match firstIdxOf c l.reverse with
  | none => none
  | some i => some (l.length - 1 - i)

/-- Inclusive slice `l[i..j]`. -/
def sliceIncl (l : List Char) (i j : Nat) : List Char :=
  (l.drop i).take (j + 1 - i)

/-! ### Regex models

The three regular expressions used by the repository's extractors are
simple enough to model directly:

* `re.search(r'\{[\s\S]*\}', s)` matches iff the first `{` occurs
  before the last `}`, and then (leftmost start, greedy star) spans
  from the first `{` to the last `}` of the whole string;
* `re.search(r'\[[\s\S]*\]', s)` is the same with square brackets;
* `re.findall(r'\{[^\x7b\x7d]*\}', s)` scans left to right for
  non-nested `{...}` groups. -/

/-- Greedy span from the first `openC` to the last `closeC`
(`re.search` with pattern  open [\s\S]* close). -/
def greedySpan (openC closeC : Char) (l : List Char) : Option (List Char) :=
  match firstIdxOf openC l, lastIdxOf closeC l with
  | some i, some j => if i < j then some (sliceIncl l i j) else none
  | _, _ => none

/-- One step of `re.findall(r'\{[^\x7b\x7d]*\}', s)`: at the current
position, try to read `{`, then characters that are neither brace, then
`}`. Returns the matched group and the rest. -/
def flatObjAt (l : List Char) : Option (List Char × List Char) :=
  match l with
  | '{' :: rest =>
    let body := rest.takeWhile (fun c => c ≠ '{' && c ≠ '}')
    let after := rest.dropWhile (fun c => c ≠ '{' && c ≠ '}')
    match after with
    | '}' :: rest2 => some ('{' :: body ++ ['}'], rest2)
    | _ => none
  | _ => none

/-- `re.findall(r'\{[^\x7b\x7d]*\}', s)`: left-to-right, non-overlapping.
`fuel` is an upper bound on the scan length (use `l.length + 1`). -/
def findFlatObjs : Nat → List Char → List (List Char)
  | 0, _ => []
  | _ + 1, [] => []
  | fuel + 1, c :: cs =>
    match flatObjAt (c :: cs) with
    | some (m, rest) => m :: findFlatObjs fuel rest
    | none => findFlatObjs fuel cs

/-- Model of `re.sub(r'\s+', ' ', s)`: each maximal run of whitespace
becomes a single space. -/
def collapseWs : List Char → List Char
  | [] => []
  | [c] => if reIsSpace c then [' '] else [c]
  | c1 :: c2 :: rest =>
    if reIsSpace c1 && reIsSpace c2 then collapseWs (c2 :: rest)
    else (if reIsSpace c1 then ' ' else c1) :: collapseWs (c2 :: rest)

/-- Model of `re.sub(pat + r'\s*', '', s)` for a literal `pat`:
remove each occurrence of `pat` together with the whitespace run
following it.  `fuel` bounds the scan (use `l.length + 1`). -/
def removeLitWs (pat : List Char) : Nat → List Char → List Char
  | 0, l => l
  | _ + 1, [] => []
  | fuel + 1, c :: cs =>
    if pat.isPrefixOf (c :: cs) && pat ≠ [] then
      removeLitWs pat fuel (((c :: cs).drop pat.length).dropWhile reIsSpace)
    else c :: removeLitWs pat fuel cs

/-! ### `chunk_text` (app/utils/helpers.py, lines 23-25)

`[text[i:i + chunk_size] for i in range(0, len(text), chunk_size)]`:
the chunk at offset `k * n` is `take n` of `drop (k * n)`.  The fuel
argument makes the recursion structural; `chunkText` supplies enough
fuel for the whole text.  For `n = 0` Python's `range` raises
`ValueError`; the model returns `[]` there (that case is excluded by
the claims' `chunk_size > 0` hypothesis). -/

def chunkTextGo (n : Nat) : Nat → List Char → List (List Char)
  | 0, _ => []
  | _ + 1, [] => []
  | fuel + 1, l => l.take n :: chunkTextGo n fuel (l.drop n)

def chunkText (l : List Char) (n : Nat) : List (List Char) :=
  if n = 0 then [] else chunkTextGo n l.length l

/-! ### JSON validity (model of `json.loads` succeeding)

A fuel-indexed recursive-descent acceptor for the JSON grammar:
value := object | array | string | number | true | false | null.
String escapes are modelled as "backslash consumes the next
character", which is exact on the escape sequences appearing in this
development.  `jsonParses s` holds iff `json.loads(s)` succeeds. -/

def jsonWsChar (c : Char) : Bool :=
  c = ' ' || c = '\t' || c = '\n' || c = '\x0d'

/-- Consume a JSON string body after the opening quote; returns the
remainder after the closing quote. -/
def jsonStrRest : List Char → Option (List Char)
  | [] => none
  | '"' :: rest => some rest
  | '\\' :: _ :: rest => jsonStrRest rest
  | '\\' :: [] => none
  | _ :: rest => jsonStrRest rest

/-- Consume a JSON number starting at the current position. -/
def jsonNumRest (l : List Char) : Option (List Char) :=
  let l1 := if l.head? = some '-' then l.drop 1 else l
  let ds := l1.takeWhile Char.isDigit
  if ds = [] then none
  else
    let l2 := l1.dropWhile Char.isDigit
    let l3 :=
      match l2 with
      | '.' :: r =>
        if (r.takeWhile Char.isDigit) = [] then none
        else some (r.dropWhile Char.isDigit)
      | _ => some l2
    match l3 with
    | none => none
    | some l4 =>
      match l4 with
      | 'e' :: r | 'E' :: r =>
        let r1 := if r.head? = some '+' || r.head? = some '-' then r.drop 1 else r
        if (r1.takeWhile Char.isDigit) = [] then none
        else some (r1.dropWhile Char.isDigit)
      | _ => some l4

mutual

/-- Accept one JSON value (after skipping leading whitespace); returns
the unconsumed remainder. -/
def jsonValRest : Nat → List Char → Option (List Char)
  | 0, _ => none
  | fuel + 1, l =>
    match l.dropWhile jsonWsChar with
    | '{' :: rest => jsonObjRest fuel (rest.dropWhile jsonWsChar) true
    | '[' :: rest => jsonArrRest fuel (rest.dropWhile jsonWsChar) true
    | '"' :: rest => jsonStrRest rest
    | 't' :: 'r' :: 'u' :: 'e' :: rest => some rest
    | 'f' :: 'a' :: 'l' :: 's' :: 'e' :: rest => some rest
    | 'n' :: 'u' :: 'l' :: 'l' :: rest => some rest
    | rest => jsonNumRest rest

/-- Accept the members of an object after `{`; `first` is true before
the first member. -/
def jsonObjRest : Nat → List Char → Bool → Option (List Char)
  | 0, _, _ => none
  | fuel + 1, l, first =>
    match l with
    | '}' :: rest => if first then some rest else none
    | '"' :: rest =>
      match jsonStrRest rest with
      | none => none
      | some afterKey =>
        match afterKey.dropWhile jsonWsChar with
        | ':' :: afterColon =>
          match jsonValRest fuel afterColon with
          | none => none
          | some afterVal =>
            match afterVal.dropWhile jsonWsChar with
            | ',' :: next => jsonObjMore fuel (next.dropWhile jsonWsChar)
            | '}' :: rest2 => some rest2
            | _ => none
        | _ => none
    | _ => none

/-- After a `,` in an object a member must follow. -/
def jsonObjMore : Nat → List Char → Option (List Char)
  | 0, _ => none
  | fuel + 1, l =>
    match l with
    | '"' :: _ => jsonObjRest fuel l false
    | _ => none

/-- Accept the elements of an array after `[`. -/
def jsonArrRest : Nat → List Char → Bool → Option (List Char)
  | 0, _, _ => none
  | fuel + 1, l, first =>
    match l with
    | ']' :: rest => if first then some rest else none
    | _ =>
      match jsonValRest fuel l with
      | none => none
      | some afterVal =>
        match afterVal.dropWhile jsonWsChar with
        | ',' :: next => jsonArrRest fuel (next.dropWhile jsonWsChar) false
        | ']' :: rest2 => some rest2
        | _ => none

end

/-- `json.loads(s)` succeeds: one value, then only trailing whitespace. -/
def jsonParses (l : List Char) : Bool :=
  match jsonValRest (l.length + 1) l with
  | some rest => rest.dropWhile jsonWsChar = []
  | none => false

/-- Model of `str.replace(a, b)` for single characters. -/
def pyReplaceChar (a b : Char) (l : List Char) : List Char :=
  l.map fun c => if c = a then b else c

/-! ### Data model (app/models)

`RegulationType` and its `.value` are from app/models/enums.py.
`ComplianceResult` is the pydantic model of app/models/schemas.py
(lines 25-32); `ClauseAnalysis` is from lines 14-23 (`risk_score`,
a Python float always set to the literal `5.0`, is modelled as `ℚ`). -/

inductive RegulationType where
  | gdpr | hipaa | ccpa | sox | pci_dss | ferpa
deriving DecidableEq, Repr

def RegulationType.value : RegulationType → String
  | .gdpr => "gdpr"
  | .hipaa => "hipaa"
  | .ccpa => "ccpa"
  | .sox => "sox"
  | .pci_dss => "pci_dss"
  | .ferpa => "ferpa"

structure ComplianceResult where
  compliant : Bool
  requirements_met : List String
  requirements_missing : List String
  risk_level : String
  findings : List String
  recommendations : List String
deriving DecidableEq, Repr

/-- `ComplianceResult()` with no arguments: the pydantic field defaults
of app/models/schemas.py lines 25-32.  This is the value produced at
app/core/analyzer.py line 83. -/
def ComplianceResult.mkDefault : ComplianceResult :=
  { compliant := false
    requirements_met := []
    requirements_missing := []
    risk_level := "high"
    findings := []
    recommendations := [] }

structure ClauseAnalysis where
  id : String
  text : String
  primary_category : String
  secondary_categories : List String
  obligations : List String
  deadlines : List String
  compliance_risks : List String
  risk_score : ℚ
deriving DecidableEq, Repr

/-! ### String-keyed dictionaries

Python dicts built by `d[k] = v` assignments inside a loop, read back
with `d[k]` / `d.get(k)`.  `updMap` is one assignment; `buildMap`
is a loop `for x in xs: d[keyOf x] = valOf x` starting from `{}`. -/

def updMap {β : Type} (m : String → Option β) (k : String) (v : β) :
    String → Option β :=
  fun q => if q = k then some v else m q

def buildMap {α β : Type} (keyOf : α → String) (valOf : α → β)
    (xs : List α) : String → Option β :=
  xs.foldl (fun m x => updMap m (keyOf x) (valOf x)) (fun _ => none)

namespace Compliance

/-! ### ComplianceAnalyzer (app/core/compliance.py) -/

/-- `_clean_text` (compliance.py lines 402-406):
`' '.join(text.split()).strip()`; empty or non-string input gives "". -/
def clean_text (l : List Char) : List Char :=
  pyStrip (joinSp (pySplit l))

/-- `_get_default_result` (compliance.py lines 444-453): the fail-safe
sentinel returned wherever a per-(clause, regulation) evaluation fails
inside the ComplianceAnalyzer. -/
def get_default_result : ComplianceResult :=
  { compliant := false
    requirements_met := []
    requirements_missing := ["Analysis failed"]
    risk_level := "high"
    findings := ["Unable to analyze clause"]
    recommendations := ["Perform manual review"] }

/-- `_clean_json_response` (compliance.py lines 226-249).  Filters to
printable characters (keeping `\n`, `\r`, `\t`), then:
returns the greedy `{...}` span if it contains the literal `"clauses"`;
otherwise wraps the greedy `[...]` span as `{"clauses": ...}`;
otherwise `None`.  No JSON parsing is attempted here. -/
def clean_json_response (l : List Char) : Option (List Char) :=
  if l = [] then none
  else
    let r := l.filter fun c => pyIsPrintable c || c = '\n' || c = '\x0d' || c = '\t'
    match greedySpan '{' '}' r with
    | some m =>
      if hasSubstr m "\"clauses\"".data then some m
      else
        match greedySpan '[' ']' r with
        | some a => some ("\x7b\"clauses\": ".data ++ a ++ ['}'])
        | none => none
    | none =>
      match greedySpan '[' ']' r with
      | some a => some ("\x7b\"clauses\": ".data ++ a ++ ['}'])
      | none => none

/-- `_clean_response` (compliance.py lines 504-522): filter to
printable characters (keeping `\n` and space), apply the two
straight-quote `replace` calls (no-ops: the source replaces `"` by `"`),
strip markdown code fences, and strip outer whitespace. -/
def clean_response (l : List Char) : List Char :=
  if l = [] then []
  else
    let r1 := l.filter fun c => pyIsPrintable c || c = '\n' || c = ' '
    let r2 := pyReplaceChar '"' '"' (pyReplaceChar '"' '"' r1)
    let r3 := removeLitWs "```json".data (r2.length + 1) r2
    let r4 := removeLitWs "```".data (r3.length + 1) r3
    pyStrip r4

/-- `_extract_json_from_response` (compliance.py lines 456-502).
After `_clean_response`: Method 1, the greedy `{...}` span if it
parses; Method 2, the greedy `[...]` span if it parses; Method 3, the
first non-nested `{...}` group that parses; otherwise `None`. -/
def extract_json_from_response (l : List Char) : Option (List Char) :=
  if l = [] then none
  else
    let r := clean_response l
    let m1 :=
      match greedySpan '{' '}' r with
      | some m => if jsonParses m then some m else none
      | none => none
    match m1 with
    | some m => some m
    | none =>
      let m2 :=
        match greedySpan '[' ']' r with
        | some m => if jsonParses m then some m else none
        | none => none
      match m2 with
      | some m => some m
      | none => (findFlatObjs (r.length + 1) r).find? jsonParses

/-- `_validate_risk_level` (compliance.py lines 434-442). -/
def validate_risk_level (l : List Char) : List Char :=
  let r := pyStrip (l.map Char.toLower)
  if r = "high".data || r = "medium".data || r = "low".data then r
  else "high".data

/-- `analyze_compliance` (compliance.py lines 127-150): a loop over the
requested regulations building `results[regulation.value]`.
`attempt r` models the outcome of evaluating regulation `r` on the
given clause (the awaited `_analyze_single_regulation` call, whose own
`except` at lines 187-189 and the loop's `except` at lines 142-144 both
absorb a raise — model error, unparseable JSON, transport failure —
into `_get_default_result()`); evaluation of the other regulations is
untouched by a failure. -/
def analyze_compliance
    (attempt : RegulationType → Except String ComplianceResult)
    (regulations : List RegulationType) : String → Option ComplianceResult :=
  buildMap RegulationType.value
    (fun r =>
      match attempt r with
      | .ok v => v
      | .error _ => get_default_result)
    regulations

/-- A clause dict as returned by `_process_clause`
(compliance.py lines 311-341): the extraction-phase record, before the
analyzer adds `risk_score`. -/
structure ClauseDict where
  id : String
  text : String
  primary_category : String
  secondary_categories : List String
  obligations : List String
  deadlines : List String
  compliance_risks : List String
deriving DecidableEq, Repr

/-- One call of `extract_clauses` (compliance.py lines 89-125), with
the instance state `self._clause_cache` passed explicitly.
`hashFn` is `_get_clause_hash` (lines 84-87, `str(hash(text))` — a
fixed deterministic function for the lifetime of the process);
`llmParse text` abstracts lines 98-116: the single `llm.generate` call
on the extraction prompt followed by `_clean_json_response`,
`_parse_json_with_fallbacks` and `_extract_clauses_from_data`, giving
either a non-empty clause list or the raised `ComplianceError`.
Returns the result, the new cache, and the number of LLM calls this
invocation made. -/
def extract_clauses (hashFn : List Char → String)
    (llmParse : List Char → Except String (List ClauseDict))
    (cache : String → Option (List ClauseDict)) (contract_text : List Char) :
    Except String (List ClauseDict) × (String → Option (List ClauseDict)) × Nat :=
  let key := hashFn contract_text
  match cache key with
  | some v => (.ok v, cache, 0)
  | none =>
    match llmParse contract_text with
    | .error e => (.error e, cache, 1)
    | .ok clauses => (.ok clauses, updMap cache key clauses, 1)

end Compliance

namespace ContractParser

/-- `_clean_text` (app/core/parser.py lines 76-87): collapse `\s+` runs
to single spaces, delete NUL via `replace('\u0000', '')`, apply the two
straight-quote `replace` calls (no-ops: the source replaces `"` by
`"`), drop every character with code point below 32, and strip. -/
def clean_text (l : List Char) : List Char :=
  let t1 := collapseWs l
  let t2 := t1.filter fun c => c ≠ '\x00'
  let t3 := pyReplaceChar '"' '"' (pyReplaceChar '"' '"' t2)
  let t4 := t3.filter fun c => 32 ≤ c.toNat
  pyStrip t4

end ContractParser

namespace Report

/-- Result shape of `_calculate_overall_compliance`
(app/core/report.py lines 74-78). -/
structure OverallCompliance where
  compliant_clauses : Nat
  non_compliant_clauses : Nat
  compliance_percentage : ℚ
deriving DecidableEq, Repr

/-- Python `round(x, 2)` on exact rationals. -/
def round2 (q : ℚ) : ℚ := (round (q * 100) : ℤ) / 100

/-- `_calculate_overall_compliance` (app/core/report.py lines 63-78).
The `compliance_results` dict of dicts is modelled by its nested value
lists, since the source only iterates `.values()`. -/
def calculate_overall_compliance
    (compliance_results : List (List ComplianceResult)) : OverallCompliance :=
  let tc := compliance_results.foldl
    (fun acc clause_results => clause_results.foldl
      (fun acc2 reg_result =>
        (acc2.1 + 1, if reg_result.compliant then acc2.2 + 1 else acc2.2))
      acc)
    (0, 0)
  { compliant_clauses := tc.2
    non_compliant_clauses := tc.1 - tc.2
    compliance_percentage :=
      round2 (if 0 < tc.1 then (tc.2 : ℚ) / (tc.1 : ℚ) * 100 else 0) }

end Report

namespace Analyzer

/-- The per-(clause, regulation) entry built by `analyze_contract`
(app/core/analyzer.py lines 52-83).  `attempt r` is the outcome of the
single-regulation evaluation routed through
`analyze_compliance(clause_data, [regulation])`; `reg_data` is
`reg_result.get(regulation.value, \x7b\x7d)` (line 69, with pydantic
defaults for a missing key); `validate` models the
`ComplianceResult(...)` construction at lines 72-79, which can raise on
ill-typed model output — a raise is absorbed at lines 81-83 into a
default-constructed `ComplianceResult()`. -/
def contract_pair_entry
    (validate : ComplianceResult → Except String ComplianceResult)
    (attempt : RegulationType → Except String ComplianceResult)
    (r : RegulationType) : ComplianceResult :=
  let reg_data :=
    match Compliance.analyze_compliance attempt [r] r.value with
    | some v => v
    | none => ComplianceResult.mkDefault
  match validate reg_data with
  | .ok v => v
  | .error _ => ComplianceResult.mkDefault

/-- `compliance_results` as built by the nested loops of
`analyze_contract` (app/core/analyzer.py lines 49-85): an outer dict
keyed by clause id whose values are inner dicts keyed by regulation
value. -/
def compliance_results_map
    (validate : ComplianceResult → Except String ComplianceResult)
    (attempt : ClauseAnalysis → RegulationType → Except String ComplianceResult)
    (clauses : List ClauseAnalysis) (regulations : List RegulationType) :
    String → Option (String → Option ComplianceResult) :=
  buildMap ClauseAnalysis.id
    (fun c => buildMap RegulationType.value
      (fun r => contract_pair_entry validate (attempt c) r) regulations)
    clauses

end Analyzer

namespace LLM

/-- One invocation of the body of `generate` (app/services/llm.py lines
31-61), i.e. one tenacity attempt.  `oracle k` is the transport outcome
of attempt number `k` (the `agenerate` call and response unpacking):
`.ok txt` the raw generated text, `.error` any raise inside the try
block.  The empty-prompt guard (lines 33-34) runs before the try block
on every invocation; the function's own `except` (lines 59-61) rewraps
raises from the try body. -/
def generate_attempt (oracle : Nat → Except String String)
    (prompt : List Char) (k : Nat) : Except String (List Char) :=
  if prompt = [] then .error "Empty prompt provided"
  else
    match oracle k with
    | .error e => .error ("LLM generation failed: " ++ e)
    | .ok txt =>
      let t := pyStrip txt.data
      if t = [] then .error "LLM generation failed: Empty text in LLM response"
      else .ok t

/-- The tenacity `@retry(stop=stop_after_attempt(3), wait=...)`
decorator (llm.py lines 27-30): call the wrapped function; on any
exception (the default retry predicate retries every `Exception`),
retry until 3 attempts in total have been made, then fail with
`RetryError` wrapping the last exception.  Returns the outcome and the
number of attempts actually made. -/
def retry_loop (call : Nat → Except String (List Char)) :
    Nat → Nat → Except String (List Char) × Nat
  | 0, made => (.error "RetryError", made)
  | n + 1, made =>
    match call (made + 1) with
    | .ok v => (.ok v, made + 1)
    | .error e =>
      if n = 0 then (.error ("RetryError: " ++ e), made + 1)
      else retry_loop call n (made + 1)

/-- `generate` as seen by callers: the retry-wrapped body. -/
def generate (oracle : Nat → Except String String) (prompt : List Char) :
    Except String (List Char) × Nat :=
  retry_loop (generate_attempt oracle prompt) 3 0

end LLM

namespace Routes

/-- The attribute names defined in the body of class `ContractAnalyzer`
(app/core/analyzer.py lines 12-115): only `__init__` and
`analyze_contract`. -/
def contractAnalyzerMethods : List String := ["__init__", "analyze_contract"]

/-- Python attribute lookup on a `ContractAnalyzer` instance: `none`
models the `AttributeError` raised for a missing attribute. -/
def lookupAnalyzerMethod (name : String) : Option String :=
  if contractAnalyzerMethods.contains name then some name else none

/-- `ALLOWED_EXTENSIONS` (app/config.py line 18). -/
def allowedExtensions : List String := [".pdf", ".docx", ".doc", ".txt"]

/-- `file.filename.lower().endswith(tuple(settings.ALLOWED_EXTENSIONS))`
(contracts.py line 65), plus the non-empty check. -/
def hasAllowedExtension (fname : String) : Bool :=
  fname.data ≠ [] &&
    allowedExtensions.any fun ext =>
      ext.data.isSuffixOf (fname.data.map Char.toLower)

/-- The `analyze-batch` route handler (app/api/routes/contracts.py
lines 54-85).  After validating every file name (a bad one raises
`ValidationError` → HTTP 400), the handler calls
`analyzer.analyze_multiple_contracts(temp_paths, request.regulations)`
(line 76).  `ContractAnalyzer` defines no such attribute, so attribute
lookup raises `AttributeError`, which the blanket `except Exception`
(lines 83-85) converts into HTTP 500 for the whole request.  The
success branch (one report per file) is unreachable. -/
def analyze_batch_route (files : List String) : Except Nat (List String) :=
  if files.all hasAllowedExtension then
    match lookupAnalyzerMethod "analyze_multiple_contracts" with
    | some _ => .ok files
    | none => .error 500
  else .error 400

end Routes

/-! ### Concrete fixtures used to instantiate theorems -/

/-- A normal (non-default) compliance verdict. -/
def crOk : ComplianceResult :=
  { compliant := true
    requirements_met := ["data processing agreement present"]
    requirements_missing := []
    risk_level := "low"
    findings := []
    recommendations := [] }

/-- A compliant verdict used for aggregation arithmetic. -/
def crTrue : ComplianceResult :=
  { compliant := true
    requirements_met := []
    requirements_missing := []
    risk_level := "low"
    findings := []
    recommendations := [] }

/-- A non-compliant verdict used for aggregation arithmetic. -/
def crFalse : ComplianceResult :=
  { compliant := false
    requirements_met := []
    requirements_missing := []
    risk_level := "high"
    findings := []
    recommendations := [] }

/-- A concrete extracted clause. -/
def cl0 : ClauseAnalysis :=
  { id := "c-1"
    text := "This agreement shall terminate upon 30 days notice."
    primary_category := "termination"
    secondary_categories := []
    obligations := []
    deadlines := []
    compliance_risks := []
    risk_score := 5 }

/-- A concrete clause dict as produced by `_process_clause`. -/
def cd0 : Compliance.ClauseDict :=
  { id := "c-1"
    text := "This agreement shall terminate upon 30 days notice."
    primary_category := "termination"
    secondary_categories := []
    obligations := []
    deadlines := []
    compliance_risks := [] }

/-- A concrete instance of the process-constant `_get_clause_hash`
function (`str(hash(text))`). -/
def hashEx (l : List Char) : String := String.mk l

/-- A concrete instance of the generate-and-parse stage of
`extract_clauses`: the model call always succeeds and parsing yields
one valid clause. -/
def llmParseEx (_ : List Char) : Except String (List Compliance.ClauseDict) :=
  .ok [cd0]

/-- The `_clause_cache` of a freshly constructed `ComplianceAnalyzer`
(compliance.py line 16: `self._clause_cache = \x7b\x7d`). -/
def emptyCache : String → Option (List Compliance.ClauseDict) := fun _ => none

/-- Two identical analysis requests processed the way the HTTP routes
process them: each request constructs a fresh `ContractAnalyzer`
(contracts.py line 36), hence a fresh `ComplianceAnalyzer` whose
`_clause_cache` starts empty (analyzer.py line 16, compliance.py line
16); no cache state flows from one request to the next.  Returns the
LLM call count of each request. -/
def twoIdenticalRequests (hashFn : List Char → String)
    (llmParse : List Char → Except String (List Compliance.ClauseDict))
    (text : List Char) : Nat × Nat :=
  ((Compliance.extract_clauses hashFn llmParse emptyCache text).2.2,
   (Compliance.extract_clauses hashFn llmParse emptyCache text).2.2)

/-! ### Lemmas about the dictionary model -/

theorem foldl_updMap_isSome {α β : Type} (keyOf : α → String) (valOf : α → β)
    (xs : List α) (m : String → Option β) (q : String) :
    ((xs.foldl (fun acc x => updMap acc (keyOf x) (valOf x)) m) q).isSome
      ↔ (q ∈ xs.map keyOf ∨ (m q).isSome) := by
  induction xs generalizing m with
  | nil => simp
  | cons z zs ih =>
    simp only [List.foldl_cons, List.map_cons, List.mem_cons]
    rw [ih]
    by_cases h : q = keyOf z
    · simp [updMap, h]
    · simp [updMap, h]

theorem foldl_updMap_untouched {α β : Type} (keyOf : α → String) (valOf : α → β)
    (xs : List α) (m : String → Option β) (q : String)
    (h : ∀ y ∈ xs, keyOf y ≠ q) :
    (xs.foldl (fun acc x => updMap acc (keyOf x) (valOf x)) m) q = m q := by
  induction xs generalizing m with
  | nil => rfl
  | cons z zs ih =>
    simp only [List.foldl_cons]
    rw [ih _ fun y hy => h y (List.mem_cons_of_mem _ hy)]
    simp only [updMap]
    rw [if_neg fun hq => h z (List.mem_cons_self z zs) hq.symm]

theorem foldl_updMap_lookup {α β : Type} (keyOf : α → String) (valOf : α → β)
    (xs : List α) (k : String) (v : β)
    (hex : ∃ x ∈ xs, keyOf x = k)
    (hcoh : ∀ y ∈ xs, keyOf y = k → valOf y = v) (m : String → Option β) :
    (xs.foldl (fun acc x => updMap acc (keyOf x) (valOf x)) m) k = some v := by
  induction xs generalizing m with
  | nil =>
    obtain ⟨x, hx, _⟩ := hex
    cases hx
  | cons z zs ih =>
    simp only [List.foldl_cons]
    by_cases hzs : ∃ y ∈ zs, keyOf y = k
    · exact ih hzs (fun y hy hk => hcoh y (List.mem_cons_of_mem _ hy) hk) _
    · have hz : keyOf z = k := by
        obtain ⟨x, hx, hk⟩ := hex
        rcases List.mem_cons.mp hx with rfl | hx
        · exact hk
        · exact absurd ⟨x, hx, hk⟩ hzs
      rw [foldl_updMap_untouched _ _ _ _ _ fun y hy hk => hzs ⟨y, hy, hk⟩]
      simp only [updMap]
      rw [if_pos hz.symm]
      exact congrArg some (hcoh z (List.mem_cons_self z zs) hz)

theorem foldl_updMap_mem_of {α β : Type} (keyOf : α → String) (valOf : α → β)
    (xs : List α) (m : String → Option β) (q : String) (b : β)
    (h : (xs.foldl (fun acc x => updMap acc (keyOf x) (valOf x)) m) q = some b) :
    m q = some b ∨ ∃ x ∈ xs, keyOf x = q ∧ valOf x = b := by
  induction xs generalizing m with
  | nil => exact .inl h
  | cons z zs ih =>
    simp only [List.foldl_cons] at h
    rcases ih _ h with hm | ⟨x, hx, hk, hv⟩
    · simp only [updMap] at hm
      by_cases hq : q = keyOf z
      · rw [if_pos hq] at hm
        exact .inr ⟨z, List.mem_cons_self z zs, hq.symm, Option.some.inj hm⟩
      · rw [if_neg hq] at hm
        exact .inl hm
    · exact .inr ⟨x, List.mem_cons_of_mem _ hx, hk, hv⟩

theorem RegulationType.value_inj :
    ∀ a b : RegulationType, a.value = b.value → a = b := by
  intro a b h
  cases a <;> cases b <;> revert h <;> decide

/-! ### Claim theorems -/

/-- C2: for every per-regulation evaluation oracle and every requested
regulation list, `analyze_compliance` returns a mapping whose entry for
each requested regulation is determined by that regulation's own
evaluation outcome alone — a success is recorded unchanged, and a raise
(model error, unparseable JSON, transport failure) is absorbed locally
into `_get_default_result()` — so a failure on one regulation never
aborts or alters the evaluation of any other (clause, regulation)
pair. -/
theorem c2_analyze_compliance_isolation
    (attempt : RegulationType → Except String ComplianceResult)
    (regulations : List RegulationType) (r : RegulationType)
    (hr : r ∈ regulations) :
    Compliance.analyze_compliance attempt regulations r.value =
      some (match attempt r with
            | .ok v => v
            | .error _ => Compliance.get_default_result) := by
  unfold Compliance.analyze_compliance buildMap
  apply foldl_updMap_lookup
  · exact ⟨r, hr, rfl⟩
  · intro y hy hk
    rw [RegulationType.value_inj y r hk]

theorem c2_analyze_compliance_isolation_witness :
    RegulationType.gdpr ∈ [RegulationType.gdpr, RegulationType.hipaa] ∧
    Compliance.analyze_compliance
      (fun r => match r with
                | .hipaa => .error "transport failure"
                | _ => .ok crOk)
      [RegulationType.gdpr, RegulationType.hipaa] "gdpr" = some crOk :=
  ⟨by decide,
   c2_analyze_compliance_isolation
     (fun r => match r with
               | .hipaa => .error "transport failure"
               | _ => .ok crOk)
     [RegulationType.gdpr, RegulationType.hipaa] RegulationType.gdpr (by decide)⟩

/-- C1 counterexample: the claim says the canonical fail-safe sentinel
`_get_default_result()` is used at every place a per-pair failure is
absorbed; but the absorption site at analyzer.py lines 81-83 uses a
default-constructed `ComplianceResult()` instead (pydantic field
defaults), which differs from the sentinel.  Concretely: the
single-regulation evaluation succeeds, the `ComplianceResult(...)`
construction raises (as pydantic does when the model emitted ill-typed
list fields), and the recorded entry is `ComplianceResult()` —
not the sentinel. -/
theorem c1_sentinel_counterexample :
    Analyzer.contract_pair_entry (fun _ => .error "pydantic ValidationError")
        (fun _ => .ok crOk) RegulationType.gdpr = ComplianceResult.mkDefault ∧
    ComplianceResult.mkDefault ≠ Compliance.get_default_result := by
  exact ⟨rfl, by decide⟩

/-- C1 (amended): the fail-safe sentinel has exactly the advertised
field values and is the default used at every absorption site inside
`ComplianceAnalyzer` (compliance.py lines 144, 150 and 189), but the
per-pair absorption site in `analyze_contract` (analyzer.py line 83)
uses a default-constructed `ComplianceResult()`, which differs from the
sentinel in `requirements_missing`, `findings` and
`recommendations`. -/
theorem c1_sentinel_amended :
    Compliance.get_default_result =
      { compliant := false
        requirements_met := []
        requirements_missing := ["Analysis failed"]
        risk_level := "high"
        findings := ["Unable to analyze clause"]
        recommendations := ["Perform manual review"] } ∧
    (∀ (attempt : RegulationType → Except String ComplianceResult)
        (regulations : List RegulationType) (r : RegulationType) (e : String),
        r ∈ regulations → attempt r = .error e →
        Compliance.analyze_compliance attempt regulations r.value =
          some Compliance.get_default_result) ∧
    (∀ (validate : ComplianceResult → Except String ComplianceResult)
        (attempt : RegulationType → Except String ComplianceResult)
        (r : RegulationType) (v : ComplianceResult) (e : String),
        attempt r = .ok v → validate v = .error e →
        Analyzer.contract_pair_entry validate attempt r = ComplianceResult.mkDefault) ∧
    ComplianceResult.mkDefault ≠ Compliance.get_default_result := by
  refine ⟨rfl, ?_, ?_, by decide⟩
  · intro attempt regulations r e hr he
    unfold Compliance.analyze_compliance buildMap
    apply foldl_updMap_lookup
    · exact ⟨r, hr, rfl⟩
    · intro y hy hk
      rw [RegulationType.value_inj y r hk, he]
  · intro validate attempt r v e hv hval
    unfold Analyzer.contract_pair_entry
    simp [Compliance.analyze_compliance, buildMap, updMap, hv, hval]

theorem c1_sentinel_amended_witness :
    Compliance.analyze_compliance (fun _ => .error "boom")
      [RegulationType.gdpr] "gdpr" = some Compliance.get_default_result ∧
    Analyzer.contract_pair_entry (fun _ => .error "ValidationError")
      (fun _ => .ok crOk) RegulationType.gdpr = ComplianceResult.mkDefault :=
  ⟨c1_sentinel_amended.2.1 (fun _ => .error "boom") [RegulationType.gdpr]
     RegulationType.gdpr "boom" (by decide) rfl,
   c1_sentinel_amended.2.2.1 (fun _ => .error "ValidationError")
     (fun _ => .ok crOk) RegulationType.gdpr crOk "ValidationError" rfl rfl⟩

/-- C5 (code_bug evaluation): `ContractAnalyzer` defines no
`analyze_multiple_contracts` attribute, so the batch route's call to it
raises `AttributeError` and the blanket exception handler turns every
batch request — here a batch of two perfectly valid files — into a
single HTTP 500: no per-document reports and no per-document failure
isolation are possible. -/
theorem c5_batch_route_fails_whole_batch :
    Routes.lookupAnalyzerMethod "analyze_multiple_contracts" = none ∧
    Routes.analyze_batch_route ["contract_a.pdf", "contract_b.txt"] =
      .error 500 := by
  exact ⟨rfl, rfl⟩

/-- C6 (code_bug evaluation): the empty-prompt guard raises inside the
tenacity-wrapped body, and tenacity's default retry predicate retries
every `Exception`; so a `generate` call with an empty prompt performs
all 3 attempts before failing — it is not fail-fast — while a non-empty
prompt whose transport keeps failing also performs exactly 3
attempts. -/
theorem c6_empty_prompt_retried :
    (∀ oracle : Nat → Except String String,
      LLM.generate oracle [] =
        (.error "RetryError: Empty prompt provided", 3)) ∧
    LLM.generate (fun _ => .error "connection error") "analyze this".data =
      (.error "RetryError: LLM generation failed: connection error", 3) := by
  exact ⟨fun oracle => rfl, rfl⟩

/-! ### Counting lemmas for the report aggregator -/

theorem row_count_fold (row : List ComplianceResult) (t c : Nat) :
    row.foldl (fun acc2 reg_result =>
        (acc2.1 + 1, if reg_result.compliant then acc2.2 + 1 else acc2.2)) (t, c)
      = (t + row.length, c + (row.filter fun x => x.compliant).length) := by
  induction row generalizing t c with
  | nil => simp
  | cons r row ih =>
    simp only [List.foldl_cons, List.filter_cons, List.length_cons]
    rw [ih]
    cases hr : r.compliant <;> simp [hr, Prod.ext_iff] <;> omega

theorem rows_count_fold (rows : List (List ComplianceResult)) (t c : Nat) :
    rows.foldl (fun acc clause_results => clause_results.foldl
        (fun acc2 reg_result =>
          (acc2.1 + 1, if reg_result.compliant then acc2.2 + 1 else acc2.2))
        acc) (t, c)
      = (t + (rows.map List.length).sum,
         c + (rows.map fun row => (row.filter fun x => x.compliant).length).sum) := by
  induction rows generalizing t c with
  | nil => simp
  | cons row rows ih =>
    simp only [List.foldl_cons, List.map_cons, List.sum_cons]
    rw [row_count_fold, ih]
    exact Prod.ext (by omega) (by omega)

/-- C7: `_calculate_overall_compliance` computes exactly the spec's
aggregate — compliant pairs counted over all (clause, regulation)
entries, `compliance_percentage = round(compliant / total * 100, 2)`
when the pair total is positive and `0` when it is zero; in particular
7 compliant pairs out of 10 give exactly `70.0`, and an empty result
set gives `0`. -/
theorem c7_overall_compliance_spec :
    (∀ rows : List (List ComplianceResult),
      Report.calculate_overall_compliance rows =
        { compliant_clauses :=
            (rows.map fun row => (row.filter fun x => x.compliant).length).sum
          non_compliant_clauses :=
            (rows.map List.length).sum -
              (rows.map fun row => (row.filter fun x => x.compliant).length).sum
          compliance_percentage :=
            if 0 < (rows.map List.length).sum then
              Report.round2
                ((((rows.map fun row => (row.filter fun x => x.compliant).length).sum : ℕ) : ℚ)
                  / (((rows.map List.length).sum : ℕ) : ℚ) * 100)
            else 0 }) ∧
    Report.calculate_overall_compliance
        [[crTrue, crTrue, crTrue, crTrue],
         [crTrue, crTrue, crTrue, crFalse],
         [crFalse, crFalse]] =
      { compliant_clauses := 7, non_compliant_clauses := 3,
        compliance_percentage := 70 } ∧
    (Report.calculate_overall_compliance []).compliance_percentage = 0 := by
  have hmain : ∀ rows : List (List ComplianceResult),
      Report.calculate_overall_compliance rows =
        { compliant_clauses :=
            (rows.map fun row => (row.filter fun x => x.compliant).length).sum
          non_compliant_clauses :=
            (rows.map List.length).sum -
              (rows.map fun row => (row.filter fun x => x.compliant).length).sum
          compliance_percentage :=
            if 0 < (rows.map List.length).sum then
              Report.round2
                ((((rows.map fun row => (row.filter fun x => x.compliant).length).sum : ℕ) : ℚ)
                  / (((rows.map List.length).sum : ℕ) : ℚ) * 100)
            else 0 } := by
    intro rows
    unfold Report.calculate_overall_compliance
    rw [rows_count_fold]
    simp only [Nat.zero_add]
    by_cases h : 0 < (rows.map List.length).sum
    · rw [if_pos h, if_pos h]
    · rw [if_neg h, if_neg h]
      unfold Report.round2
      norm_num
  refine ⟨hmain, ?_, ?_⟩
  · rw [hmain]
    have h7 : ((([[crTrue, crTrue, crTrue, crTrue],
         [crTrue, crTrue, crTrue, crFalse],
         [crFalse, crFalse]] : List (List ComplianceResult)).map
          fun row => (row.filter fun x => x.compliant).length).sum) = 7 := by
      decide
    have h10 : ((([[crTrue, crTrue, crTrue, crTrue],
         [crTrue, crTrue, crTrue, crFalse],
         [crFalse, crFalse]] : List (List ComplianceResult)).map List.length).sum) = 10 := by
      decide
    rw [h7, h10]
    unfold Report.round2
    norm_num
  · rw [hmain]
    norm_num

/-- C3: for every evaluation oracle, validation behaviour, clause list
and requested regulation list, the `compliance_results` mapping built
by `analyze_contract` (1) has exactly the clause ids of the report's
`clauses` list as its key set, (2) maps every clause id to an inner
mapping with an entry for every requested regulation, and (3) — for
distinct clause ids (ids are freshly generated per clause) and a
validation step that accepts the sentinel (pydantic always accepts the
well-typed sentinel dict) — records the fail-safe
`_get_default_result()` for every pair whose evaluation raised. -/
theorem c3_compliance_results_invariant
    (validate : ComplianceResult → Except String ComplianceResult)
    (attempt : ClauseAnalysis → RegulationType → Except String ComplianceResult)
    (clauses : List ClauseAnalysis) (regulations : List RegulationType) :
    (∀ k, ((Analyzer.compliance_results_map validate attempt clauses regulations) k).isSome
        ↔ k ∈ clauses.map ClauseAnalysis.id) ∧
    (∀ k m, Analyzer.compliance_results_map validate attempt clauses regulations k = some m →
        ∀ r ∈ regulations, (m r.value).isSome) ∧
    ((clauses.map ClauseAnalysis.id).Nodup →
      validate Compliance.get_default_result = .ok Compliance.get_default_result →
      ∀ c ∈ clauses, ∀ r ∈ regulations, ∀ e, attempt c r = .error e →
        ∃ m, Analyzer.compliance_results_map validate attempt clauses regulations c.id = some m ∧
          m r.value = some Compliance.get_default_result) := by
  refine ⟨?_, ?_, ?_⟩
  · intro k
    unfold Analyzer.compliance_results_map buildMap
    rw [foldl_updMap_isSome]
    simp
  · intro k m hm r hr
    unfold Analyzer.compliance_results_map buildMap at hm
    rcases foldl_updMap_mem_of _ _ _ _ _ _ hm with hnone | ⟨c, _, _, hv⟩
    · cases hnone
    · rw [← hv]
      rw [foldl_updMap_isSome]
      exact .inl (List.mem_map_of_mem RegulationType.value hr)
  · intro hnodup hval c hc r hr e he
    refine ⟨buildMap RegulationType.value
      (fun r => Analyzer.contract_pair_entry validate (attempt c) r) regulations, ?_, ?_⟩
    · unfold Analyzer.compliance_results_map buildMap
      apply foldl_updMap_lookup
      · exact ⟨c, hc, rfl⟩
      · intro y hy hk
        rw [List.inj_on_of_nodup_map hnodup hy hc hk]
    · unfold buildMap
      have hentry : Analyzer.contract_pair_entry validate (attempt c) r =
          Compliance.get_default_result := by
        unfold Analyzer.contract_pair_entry
        simp [Compliance.analyze_compliance, buildMap, updMap, he, hval]
      rw [← hentry]
      apply foldl_updMap_lookup
      · exact ⟨r, hr, rfl⟩
      · intro y hy hk
        rw [RegulationType.value_inj y r hk]

theorem c3_compliance_results_invariant_witness :
    ((Analyzer.compliance_results_map (fun v => Except.ok v)
        (fun _ _ => Except.error "boom") [cl0] [RegulationType.gdpr]) "c-1").isSome ∧
    (((Analyzer.compliance_results_map (fun v => Except.ok v)
        (fun _ _ => Except.error "boom") [cl0] [RegulationType.gdpr]) "c-1").getD
      (fun _ => none)) "gdpr" = some Compliance.get_default_result := by
  have h := c3_compliance_results_invariant (fun v => Except.ok v)
    (fun _ _ => Except.error "boom") [cl0] [RegulationType.gdpr]
  constructor
  · exact (h.1 "c-1").mpr (by decide)
  · obtain ⟨m, hm, hv⟩ := h.2.2 (by decide) rfl cl0 (by decide)
      RegulationType.gdpr (by decide) "boom" rfl
    have hm2 : Analyzer.compliance_results_map (fun v => Except.ok v)
        (fun _ _ => Except.error "boom") [cl0] [RegulationType.gdpr] "c-1" = some m := hm
    rw [hm2]
    exact hv

/-! ### Chunking lemmas -/

theorem chunkTextGo_flatten (n : Nat) (hn : 0 < n) :
    ∀ fuel l, l.length ≤ fuel → (chunkTextGo n fuel l).flatten = l := by
  intro fuel
  induction fuel with
  | zero =>
    intro l hl
    have : l = [] := List.length_eq_zero.mp (Nat.le_zero.mp hl)
    subst this
    rfl
  | succ fuel ih =>
    intro l hl
    cases l with
    | nil => rfl
    | cons a as =>
      show ((a :: as).take n :: chunkTextGo n fuel ((a :: as).drop n)).flatten = a :: as
      rw [List.flatten_cons, ih ((a :: as).drop n) ?_, List.take_append_drop]
      simp only [List.length_drop, List.length_cons] at hl ⊢
      omega

theorem chunkTextGo_nil (n fuel : Nat) : chunkTextGo n fuel [] = [] := by
  cases fuel <;> rfl

theorem chunkTextGo_lengths (n : Nat) (hn : 0 < n) :
    ∀ fuel l, l.length ≤ fuel → ∀ ch ∈ (chunkTextGo n fuel l).dropLast,
      ch.length = n := by
  intro fuel
  induction fuel with
  | zero =>
    intro l hl ch hch
    have : l = [] := List.length_eq_zero.mp (Nat.le_zero.mp hl)
    subst this
    cases hch
  | succ fuel ih =>
    intro l hl ch hch
    cases l with
    | nil => cases hch
    | cons a as =>
      have hch2 : ch ∈ ((a :: as).take n ::
          chunkTextGo n fuel ((a :: as).drop n)).dropLast := hch
      cases hrest : chunkTextGo n fuel ((a :: as).drop n) with
      | nil =>
        rw [hrest] at hch2
        cases hch2
      | cons b bs =>
        rw [hrest] at hch2
        have hch3 : ch ∈ (a :: as).take n :: (b :: bs).dropLast := hch2
        have hdrop_ne : (a :: as).drop n ≠ [] := by
          intro hd
          rw [hd, chunkTextGo_nil] at hrest
          cases hrest
        have hn_le : n ≤ (a :: as).length := by
          by_contra hcon
          push_neg at hcon
          exact hdrop_ne (List.drop_eq_nil_of_le (Nat.le_of_lt hcon))
        rcases List.mem_cons.mp hch3 with rfl | hch4
        · rw [List.length_take]
          omega
        · rw [← hrest] at hch4
          refine ih ((a :: as).drop n) ?_ ch hch4
          simp only [List.length_drop, List.length_cons] at hl ⊢
          omega

/-- C10: for every text and every positive chunk size, `chunk_text`
returns consecutive substrings whose concatenation is exactly the input
text, and every chunk except possibly the last has length exactly
`chunk_size`. -/
theorem c10_chunk_text_spec (l : List Char) (n : Nat) (h : 0 < n) :
    (chunkText l n).flatten = l ∧
      ∀ ch ∈ (chunkText l n).dropLast, ch.length = n := by
  unfold chunkText
  rw [if_neg (Nat.pos_iff_ne_zero.mp h)]
  exact ⟨chunkTextGo_flatten n h l.length l le_rfl,
         chunkTextGo_lengths n h l.length l le_rfl⟩

theorem c10_chunk_text_spec_witness :
    0 < 3 ∧ (chunkText "abcdefg".data 3).flatten = "abcdefg".data :=
  ⟨by decide, (c10_chunk_text_spec "abcdefg".data 3 (by decide)).1⟩

/-! ### Cache lemmas for `extract_clauses` -/

theorem extract_clauses_cached (hashFn : List Char → String)
    (llmParse : List Char → Except String (List Compliance.ClauseDict))
    (cache : String → Option (List Compliance.ClauseDict))
    (text : List Char) (v : List Compliance.ClauseDict)
    (h : (Compliance.extract_clauses hashFn llmParse cache text).1 = .ok v) :
    (Compliance.extract_clauses hashFn llmParse cache text).2.1 (hashFn text)
      = some v := by
  simp only [Compliance.extract_clauses] at h ⊢
  cases hc : cache (hashFn text) with
  | some w =>
    rw [hc] at h
    dsimp only at h ⊢
    rw [hc]
    exact congrArg some (Except.ok.inj h)
  | none =>
    rw [hc] at h
    cases hl : llmParse text with
    | error e =>
      rw [hl] at h
      dsimp only at h
      cases h
    | ok cl =>
      rw [hl] at h
      dsimp only at h ⊢
      simp [updMap, Except.ok.inj h]

theorem extract_clauses_hit (hashFn : List Char → String)
    (llmParse : List Char → Except String (List Compliance.ClauseDict))
    (cache : String → Option (List Compliance.ClauseDict))
    (text : List Char) (v : List Compliance.ClauseDict)
    (h : cache (hashFn text) = some v) :
    Compliance.extract_clauses hashFn llmParse cache text = (.ok v, cache, 0) := by
  simp only [Compliance.extract_clauses, h]

/-- C8 counterexample: the claim says the clause cache persists for the
process lifetime, so a repeated analysis of identical text within the
process must not re-invoke the model; but `_clause_cache` is instance
state of `ComplianceAnalyzer` and the HTTP routes construct a fresh
`ContractAnalyzer` per request (contracts.py line 36), so the second of
two identical requests performs a fresh LLM call (call count 1, where
the claim requires 0). -/
theorem c8_cache_counterexample :
    twoIdenticalRequests hashEx llmParseEx "Sample contract text.".data
      = (1, 1) := rfl

/-- C8 (amended): within the lifetime of one `ComplianceAnalyzer`
instance the memoization behaves as claimed: after a successful
`extract_clauses` call, a second call with the identical text returns
the same cached clause list and performs zero LLM calls, keyed by the
deterministic `str(hash(text))`; the cache persists for the instance
(not the process) lifetime. -/
theorem c8_cache_amended (hashFn : List Char → String)
    (llmParse : List Char → Except String (List Compliance.ClauseDict))
    (cache : String → Option (List Compliance.ClauseDict))
    (text : List Char) (v : List Compliance.ClauseDict)
    (h : (Compliance.extract_clauses hashFn llmParse cache text).1 = .ok v) :
    Compliance.extract_clauses hashFn llmParse
        (Compliance.extract_clauses hashFn llmParse cache text).2.1 text =
      (.ok v, (Compliance.extract_clauses hashFn llmParse cache text).2.1, 0) :=
  extract_clauses_hit hashFn llmParse _ text v
    (extract_clauses_cached hashFn llmParse cache text v h)

theorem c8_cache_amended_witness :
    Compliance.extract_clauses hashEx llmParseEx
        (Compliance.extract_clauses hashEx llmParseEx emptyCache
          "Sample contract text.".data).2.1 "Sample contract text.".data =
      (.ok [cd0],
       (Compliance.extract_clauses hashEx llmParseEx emptyCache
          "Sample contract text.".data).2.1, 0) :=
  c8_cache_amended hashEx llmParseEx emptyCache
    "Sample contract text.".data [cd0] rfl

/-! ### Split/join lemmas for the compliance text normalizer -/

theorem pySplitAux_word (w : List Char) (hw : ∀ c ∈ w, pyIsSpace c = false) :
    ∀ (r acc : List Char), pySplitAux (w ++ r) acc = pySplitAux r (acc ++ w) := by
  induction w with
  | nil => intro r acc; rw [List.nil_append, List.append_nil]
  | cons c w ih =>
    intro r acc
    have hc : pyIsSpace c = false := hw c (List.mem_cons_self c w)
    show pySplitAux (c :: (w ++ r)) acc = pySplitAux r (acc ++ c :: w)
    rw [show pySplitAux (c :: (w ++ r)) acc = pySplitAux (w ++ r) (acc ++ [c]) by
          simp [pySplitAux, hc]]
    rw [ih (fun d hd => hw d (List.mem_cons_of_mem c hd)) r (acc ++ [c])]
    rw [List.append_assoc, List.singleton_append]

theorem pySplitAux_spaces (s : List Char) (hs : ∀ c ∈ s, pyIsSpace c = true) :
    ∀ acc, pySplitAux s acc = if acc = [] then [] else [acc] := by
  induction s with
  | nil => intro acc; rfl
  | cons c s ih =>
    intro acc
    have hc : pyIsSpace c = true := hs c (List.mem_cons_self c s)
    have ih0 := ih (fun d hd => hs d (List.mem_cons_of_mem c hd)) []
    by_cases ha : acc = []
    · subst ha
      simp [pySplitAux, hc, ih0]
    · simp [pySplitAux, hc, ha, ih0]

theorem pySplitAux_append_spaces (m s : List Char)
    (hs : ∀ c ∈ s, pyIsSpace c = true) :
    ∀ acc, pySplitAux (m ++ s) acc = pySplitAux m acc := by
  induction m with
  | nil =>
    intro acc
    rw [List.nil_append, pySplitAux_spaces s hs acc]
    rfl
  | cons c m ih =>
    intro acc
    cases hc : pyIsSpace c
    · show pySplitAux (c :: (m ++ s)) acc = pySplitAux (c :: m) acc
      simp only [pySplitAux, hc]
      exact ih (acc ++ [c])
    · show pySplitAux (c :: (m ++ s)) acc = pySplitAux (c :: m) acc
      by_cases ha : acc = []
      · simp only [pySplitAux, hc, ha]
        simp only [if_true]
        exact ih []
      · simp only [pySplitAux, hc, ha]
        simp [ih []]

theorem pySplit_lstrip (x : List Char) : pySplit (pyLStrip x) = pySplit x := by
  induction x with
  | nil => rfl
  | cons c x ih =>
    cases hc : pyIsSpace c
    · unfold pyLStrip
      rw [List.dropWhile_cons_of_neg (by simp [hc])]
    · unfold pyLStrip at ih ⊢
      rw [List.dropWhile_cons_of_pos (by simp [hc])]
      rw [ih]
      show pySplit x = pySplitAux (c :: x) []
      simp [pySplit, pySplitAux, hc]

theorem rstrip_decomposition (y : List Char) :
    ∃ s, y = pyRStrip y ++ s ∧ ∀ c ∈ s, pyIsSpace c = true := by
  refine ⟨(y.reverse.takeWhile pyIsSpace).reverse, ?_, ?_⟩
  · unfold pyRStrip
    conv_lhs => rw [← y.reverse_reverse,
      ← List.takeWhile_append_dropWhile (p := pyIsSpace) (l := y.reverse)]
    rw [List.reverse_append]
  · intro c hc
    rw [List.mem_reverse] at hc
    exact List.mem_takeWhile_imp hc

theorem pySplit_rstrip (y : List Char) : pySplit (pyRStrip y) = pySplit y := by
  obtain ⟨s, hy, hs⟩ := rstrip_decomposition y
  conv_rhs => rw [hy]
  unfold pySplit
  rw [pySplitAux_append_spaces _ s hs]

theorem pySplit_strip (x : List Char) : pySplit (pyStrip x) = pySplit x := by
  unfold pyStrip
  rw [pySplit_rstrip, pySplit_lstrip]

theorem pySplitAux_words_good (l : List Char) :
    ∀ acc, (acc = [] ∨ (acc ≠ [] ∧ ∀ c ∈ acc, pyIsSpace c = false)) →
      ∀ w ∈ pySplitAux l acc, w ≠ [] ∧ ∀ c ∈ w, pyIsSpace c = false := by
  induction l with
  | nil =>
    intro acc hacc w hw
    by_cases ha : acc = []
    · subst ha
      cases hw
    · have hw2 : w ∈ [acc] := by
        simpa [pySplitAux, ha] using hw
      rcases hacc with rfl | ⟨_, hgood⟩
      · exact absurd rfl ha
      · rw [List.mem_singleton.mp hw2]
        exact ⟨ha, hgood⟩
  | cons c l ih =>
    intro acc hacc w hw
    cases hc : pyIsSpace c
    · have hw2 : w ∈ pySplitAux l (acc ++ [c]) := by
        simpa [pySplitAux, hc] using hw
      refine ih (acc ++ [c]) (.inr ⟨by simp, ?_⟩) w hw2
      intro d hd
      rcases List.mem_append.mp hd with hd | hd
      · rcases hacc with rfl | ⟨_, hgood⟩
        · cases hd
        · exact hgood d hd
      · rw [List.mem_singleton.mp hd]
        exact hc
    · by_cases ha : acc = []
      · subst ha
        have hw2 : w ∈ pySplitAux l [] := by
          simpa [pySplitAux, hc] using hw
        exact ih [] (.inl rfl) w hw2
      · have hw2 : w ∈ acc :: pySplitAux l [] := by
          simpa [pySplitAux, hc, ha] using hw
        rcases List.mem_cons.mp hw2 with rfl | hw3
        · rcases hacc with rfl | ⟨_, hgood⟩
          · exact absurd rfl ha
          · exact ⟨ha, hgood⟩
        · exact ih [] (.inl rfl) w hw3

theorem pySplit_joinSp (ws : List (List Char))
    (hws : ∀ w ∈ ws, w ≠ [] ∧ ∀ c ∈ w, pyIsSpace c = false) :
    pySplit (joinSp ws) = ws := by
  induction ws with
  | nil => rfl
  | cons w ws ih =>
    cases ws with
    | nil =>
      obtain ⟨hne, hgood⟩ := hws w (List.mem_cons_self w [])
      show pySplitAux (joinSp [w]) [] = [w]
      rw [show joinSp [w] = w ++ [] from (List.append_nil w).symm]
      rw [pySplitAux_word w hgood [] []]
      simp [pySplitAux, hne]
    | cons w2 ws2 =>
      obtain ⟨hne, hgood⟩ := hws w (List.mem_cons_self w _)
      show pySplitAux (w ++ ' ' :: joinSp (w2 :: ws2)) [] = w :: w2 :: ws2
      rw [pySplitAux_word w hgood _ []]
      rw [List.nil_append]
      rw [show pySplitAux (' ' :: joinSp (w2 :: ws2)) w
            = w :: pySplitAux (joinSp (w2 :: ws2)) [] by
          simp [pySplitAux, pyIsSpace, hne]]
      have ih2 := ih fun u hu => hws u (List.mem_cons_of_mem w hu)
      unfold pySplit at ih2
      rw [ih2]

/-- C9 counterexample: the document-ingestion cleaner
(`ContractParser._clean_text`) is not idempotent.  On `"a \x01 b"` the
whitespace collapsing pass leaves the two single spaces around the
control character untouched, the later `ord(char) >= 32` filter then
deletes the control character, leaving two adjacent spaces that only a
second application collapses: `normalize(s) = "a  b"` but
`normalize(normalize(s)) = "a b"`. -/
theorem c9_parser_cleaner_counterexample :
    ContractParser.clean_text (ContractParser.clean_text "a \x01 b".data) ≠
      ContractParser.clean_text "a \x01 b".data := by
  decide

/-- C9 (amended): the clause/model-response text cleaner
(`ComplianceAnalyzer._clean_text`, i.e. `' '.join(text.split()).strip()`)
is idempotent for every string; the document-ingestion cleaner
(`ContractParser._clean_text`) is not — removing control characters
after whitespace collapsing can create a new run of adjacent spaces, as
on `"a \x01 b"`. -/
theorem c9_clean_text_idempotent :
    (∀ l, Compliance.clean_text (Compliance.clean_text l) = Compliance.clean_text l) ∧
    ContractParser.clean_text (ContractParser.clean_text "a \x01 b".data) ≠
      ContractParser.clean_text "a \x01 b".data := by
  constructor
  · intro l
    show Compliance.clean_text (pyStrip (joinSp (pySplit l))) = Compliance.clean_text l
    unfold Compliance.clean_text
    rw [pySplit_strip]
    rw [pySplit_joinSp (pySplit l)
      (fun w hw => pySplitAux_words_good l [] (.inl rfl) w hw)]
  · decide

/-! ### Substring lemmas for the extractor comparison -/

theorem hasSubstr_of_isPrefixOf (hay nd : List Char)
    (h : nd.isPrefixOf hay = true) : hasSubstr hay nd = true := by
  unfold hasSubstr
  rw [h]
  rfl

theorem hasSubstr_cons (c : Char) (hay nd : List Char)
    (h : hasSubstr hay nd = true) : hasSubstr (c :: hay) nd = true := by
  unfold hasSubstr
  split
  · rfl
  · exact h

theorem hasSubstr_clauses_wrap (a : List Char) :
    hasSubstr ("\x7b\"clauses\": ".data ++ a ++ ['}']) "\"clauses\"".data = true := by
  have h1 : "\x7b\"clauses\": ".data ++ a ++ ['}']
      = '{' :: ("\"clauses\"".data ++ (':' :: ' ' :: (a ++ ['}']))) := rfl
  rw [h1]
  apply hasSubstr_cons
  apply hasSubstr_of_isPrefixOf
  exact List.isPrefixOf_iff_prefix.mpr (List.prefix_append _ _)

/-- C4 counterexample: the two extraction procedures are not the same
logic differing only in the expected wrapper.  On the completion
`{"a": 1}` — a perfectly parseable JSON object —
`_clean_json_response` returns `None` (its object branch requires the
literal substring `"clauses"` and there is no array to wrap), while
`_extract_json_from_response` returns the object; and on
`{"clauses": nope}` `_clean_json_response` returns the span verbatim
even though it does not parse as JSON, contradicting the claim that
each returns only a result that parses as a valid JSON object or
`None`. -/
theorem c4_extractors_counterexample :
    (Compliance.clean_json_response "\x7b\"a\": 1\x7d".data = none ∧
     Compliance.extract_json_from_response "\x7b\"a\": 1\x7d".data =
       some "\x7b\"a\": 1\x7d".data) ∧
    (Compliance.clean_json_response "\x7b\"clauses\": nope\x7d".data =
       some "\x7b\"clauses\": nope\x7d".data ∧
     jsonParses "\x7b\"clauses\": nope\x7d".data = false) := by
  exact ⟨⟨by decide, by decide⟩, by decide, by decide⟩

/-- C4 (amended): the two JSON-extraction procedures are distinct
algorithms, not one extraction logic with different expected wrappers:
`_extract_json_from_response` validates parseability — every string it
returns parses as JSON — and has a third non-nested-object fallback,
while `_clean_json_response` performs no parse validation at all; it
returns the greedy object span only when it contains the literal key
`"clauses"`, or wraps the greedy array span in a `{"clauses": ...}`
object (so every result it returns contains `"clauses"`), and the two
disagree on plain JSON objects without a `"clauses"` key. -/
theorem c4_extractors_amended :
    (∀ l r, Compliance.extract_json_from_response l = some r →
      jsonParses r = true) ∧
    (∀ l r, Compliance.clean_json_response l = some r →
      hasSubstr r "\"clauses\"".data = true) ∧
    (Compliance.clean_json_response "\x7b\"a\": 1\x7d".data = none ∧
     Compliance.extract_json_from_response "\x7b\"a\": 1\x7d".data =
       some "\x7b\"a\": 1\x7d".data) := by
  refine ⟨?_, ?_, by decide, by decide⟩
  · intro l r h
    unfold Compliance.extract_json_from_response at h
    split at h
    · cases h
    · dsimp only at h
      split at h
      next m heq =>
        rw [h] at heq
        split at heq
        next g hg =>
          split at heq
          · rw [← Option.some.inj heq]
            assumption
          · cases heq
        next => cases heq
      next heq =>
        split at h
        next m2 heq2 =>
          rw [h] at heq2
          split at heq2
          next g hg =>
            split at heq2
            · rw [← Option.some.inj heq2]
              assumption
            · cases heq2
          next => cases heq2
        next heq2 =>
          exact List.find?_some h
  · intro l r h
    unfold Compliance.clean_json_response at h
    split at h
    · cases h
    · dsimp only at h
      split at h
      next m hm =>
        split at h
        · rw [← Option.some.inj h]
          assumption
        · split at h
          next a ha =>
            rw [← Option.some.inj h]
            exact hasSubstr_clauses_wrap a
          next => cases h
      next hm =>
        split at h
        next a ha =>
          rw [← Option.some.inj h]
          exact hasSubstr_clauses_wrap a
        next => cases h

theorem c4_extractors_amended_witness :
    jsonParses "\x7b\"a\": 1\x7d".data = true ∧
    hasSubstr "\x7b\"clauses\": [1]\x7d".data "\"clauses\"".data = true :=
  ⟨c4_extractors_amended.1 "\x7b\"a\": 1\x7d".data "\x7b\"a\": 1\x7d".data (by decide),
   c4_extractors_amended.2.1 "x [1] y".data "\x7b\"clauses\": [1]\x7d".data (by decide)⟩

end ContractAgent
